import Mathlib

/-!
Shallow embedding of `server.js` from the `flxblobstore` repository, together
with proofs about its credential resolver (`getStorageCredentials`), its
feature-flag cache (`refreshFeatureFlags` / `featureFlags`), its filename
sanitizer (`safeFilename`), and its upload and gallery routes.

JavaScript strings are modelled as `List Char`; machine-level details that the
claims do not touch (event loop, HTTP framing) are abstracted into explicit
inputs.  External collaborators (Key Vault `getSecret`, App Configuration
listing, blob listing, `JSON.parse`) are passed in as explicit oracle values or
functions, and the number of calls the code makes to each is returned
explicitly so that call-count claims can be stated.
-/

namespace Flx

/-- JavaScript strings, modelled character by character. -/
abbrev JStr := List Char

/-- Characters of a Lean string literal, used to embed JS string literals. -/
def chars (s : String) : JStr := s.data

/-! ## Filename sanitizer (`server.js` lines 144-148)

```js
const safeFilename = req.file.originalname
  .replace(/[^a-zA-Z0-9.-]/g, '_')
  .replace(/\s+/g, '_')
  .replace(/_\x7b2,\x7d/g, '_')
  .replace(/^_+|_+$/g, '');
```
-/

/-- Membership in the character class `[a-zA-Z0-9.-]` of the first regex. -/
def allowedChar (c : Char) : Bool :=
  decide (('a' ≤ c ∧ c ≤ 'z') ∨ ('A' ≤ c ∧ c ≤ 'Z') ∨ ('0' ≤ c ∧ c ≤ '9') ∨ c = '.' ∨ c = '-')

/-- The underscore test used by the `_` collapsing and stripping regexes. -/
def isUnderscore (c : Char) : Bool := c == '_'

/-- The whitespace class `\s` of the second regex (main members; after the
first replacement no whitespace remains, so the exact extent of the class does
not affect the composition). -/
def isJsWhitespace (c : Char) : Bool :=
  c == ' ' || c == '\t' || c == '\n' || c == '\r' || c == '\x0b' || c == '\x0c'

/-- Replace every maximal run of characters satisfying `p` by the single
character `r`; the flag records whether we are inside a run already replaced.
`replace(/X+/g, r)` for a character class `X` behaves exactly like this, and
`replace(/_\x7b2,\x7d/g, '_')` agrees with it as well because a run of one
underscore is mapped to itself. -/
def replaceRunsGo (p : Char → Bool) (r : Char) : Bool → List Char → List Char
  | _, [] => []
  | true, c :: cs =>
    if p c then replaceRunsGo p r true cs
    else c :: replaceRunsGo p r false cs
  | false, c :: cs =>
    if p c then r :: replaceRunsGo p r true cs
    else c :: replaceRunsGo p r false cs

/-- Replace every maximal run of `p`-characters in `l` by the single character `r`. -/
def replaceRuns (p : Char → Bool) (r : Char) (l : List Char) : List Char :=
  replaceRunsGo p r false l

/-- Strip a trailing run of underscores (the `_+$` alternative of the last regex). -/
def dropTrailingUnderscores (l : List Char) : List Char :=
  (l.reverse.dropWhile isUnderscore).reverse

/-- Strip leading and trailing runs of underscores (`replace(/^_+|_+$/g, '')`). -/
def stripUnderscores (l : List Char) : List Char :=
  dropTrailingUnderscores (l.dropWhile isUnderscore)

/-- The four-step sanitizer from the upload route: replace characters outside
`[a-zA-Z0-9.-]` by `_`, collapse whitespace runs to `_`, collapse underscore
runs to a single `_`, strip leading and trailing underscores. -/
def safeFilename (originalname : JStr) : JStr :=
  stripUnderscores
    (replaceRuns isUnderscore '_'
      (replaceRuns isJsWhitespace '_'
        (originalname.map fun c => if allowedChar c then c else '_')))

/-! ## Credential resolver (`getStorageCredentials`, `server.js` lines 98-126) -/

/-- A JavaScript error raised by an external client: only its message matters. -/
structure JsError where
  message : JStr
deriving DecidableEq

/-- An error thrown by the server code itself.  `new Error(msg)` leaves the
`cause` property undefined, modelled as `none`; `new Error(msg, \x7b cause \x7d)`
would set it, but `server.js` never does. -/
structure ThrownError where
  message : JStr
  cause : Option JsError
deriving DecidableEq

/-- Result of `secretClient.getSecret`: a secret whose `value` may be undefined. -/
structure KVSecret where
  value : Option JStr
deriving DecidableEq

/-- `new StorageSharedKeyCredential(storageAccountName, accountKey)`. -/
structure StorageSharedKeyCredential where
  accountName : JStr
  accountKey : Option JStr
deriving DecidableEq

/-- `new BlobServiceClient(url, sharedKeyCredential)`. -/
structure BlobServiceClient where
  url : JStr
  credential : StorageSharedKeyCredential
deriving DecidableEq

/-- The configuration the resolver reads from the environment (lines 29-35).
`none` models an unset environment variable. -/
structure ResolverConfig where
  storageAccountName : JStr
  storageAccountKey : Option JStr
  keyVaultUrl : Option JStr
  storageKeySecretName : JStr
  containerName : JStr
deriving DecidableEq

/-- JavaScript truthiness of a possibly-unset environment string:
`undefined` and the empty string are falsy, every other string is truthy. -/
def envTruthy : Option JStr → Bool
  | none => false
  | some s => !s.isEmpty

/-- Message of the error thrown when the Key Vault fetch fails (line 113). -/
def vaultFailureMsg : JStr :=
  chars "Unable to get storage account credentials. Please set STORAGE_ACCOUNT_KEY environment variable."

/-- Message of the error thrown when neither credential source is configured (line 116). -/
def noSourceMsg : JStr :=
  chars "No storage account credentials found. Set STORAGE_ACCOUNT_KEY or configure Key Vault."

/-- The blob endpoint string built at line 122. -/
def blobEndpoint (cfg : ResolverConfig) : JStr :=
  chars "https://" ++ cfg.storageAccountName ++ chars ".blob.core.windows.net"

/-- Lines 120-124: build the shared-key credential and the blob service client. -/
def mkBlobServiceClient (cfg : ResolverConfig) (accountKey : Option JStr) : BlobServiceClient :=
  ⟨blobEndpoint cfg, ⟨cfg.storageAccountName, accountKey⟩⟩

/-- `getStorageCredentials` (lines 98-126).  The outcome of the single possible
`secretClient.getSecret(storageKeySecretName)` call is supplied as the oracle
`secretResult`; the second component of the result counts how many times that
call was actually performed. -/
def getStorageCredentials (cfg : ResolverConfig) (secretResult : Except JsError KVSecret) :
    Except ThrownError BlobServiceClient × Nat :=
  if envTruthy cfg.storageAccountKey then
    (Except.ok (mkBlobServiceClient cfg cfg.storageAccountKey), 0)
  else if envTruthy cfg.keyVaultUrl then
    match secretResult with
    | Except.ok secret => (Except.ok (mkBlobServiceClient cfg secret.value), 1)
    | Except.error _ => (Except.error ⟨vaultFailureMsg, none⟩, 1)
  else
    (Except.error ⟨noSourceMsg, none⟩, 0)

/-- The spec's `CredentialUnavailable` taxonomy entry: the two failure messages
`getStorageCredentials` can throw, both meaning no usable secret source. -/
def isCredentialUnavailable (e : ThrownError) : Prop :=
  e.message = vaultFailureMsg ∨ e.message = noSourceMsg

/-- The `cause` property of the error of a failed resolution (undefined on success). -/
def thrownCause : Except ThrownError BlobServiceClient → Option JsError
  | Except.error e => e.cause
  | Except.ok _ => none

/-! ## Feature-flag cache (`featureFlags` / `refreshFeatureFlags`, lines 54-90) -/

/-- Results of `JSON.parse` (the subset of JavaScript values JSON can denote). -/
inductive Json where
  | null
  | bool (b : Bool)
  | num (n : Int)
  | jstr (s : JStr)
  | arr (elems : List Json)
  | obj (fields : List (JStr × Json))

/-- First binding of a field name in a parsed object. -/
def getField : List (JStr × Json) → JStr → Option Json
  | [], _ => none
  | (k, v) :: rest, key => if k = key then some v else getField rest key

/-- JavaScript property access `j.k`: a field of an object, `undefined` (here
`none`) on every non-object non-null value.  Access on `null` throws instead
and is handled separately by the caller. -/
def jsProp : Json → JStr → Option Json
  | Json.obj fields, key => getField fields key
  | _, _ => none

/-- JavaScript double-negation `!!v` on a possibly-undefined JSON value. -/
def jsTruthy : Option Json → Bool
  | none => false
  | some Json.null => false
  | some (Json.bool b) => b
  | some (Json.num n) => decide (n ≠ 0)
  | some (Json.jstr s) => !s.isEmpty
  | some (Json.arr _) => true
  | some (Json.obj _) => true

/-- One setting returned by `listConfigurationSettings` (key and raw value). -/
structure ConfigurationSetting where
  key : JStr
  value : JStr
deriving DecidableEq

/-- `String.prototype.split` on a single separator character. -/
def splitOnChar (sep : Char) : List Char → List (List Char)
  | [] => [[]]
  | c :: cs =>
    let rest := splitOnChar sep cs
    if c = sep then [] :: rest
    else
      match rest with
      | [] => [[c]]
      | seg :: segs => (c :: seg) :: segs

/-- `setting.key.split('/')[1]`: the second segment of the key.  When the key
contains no slash the index is out of range and JavaScript coerces the
resulting `undefined` to the property name `"undefined"`. -/
def flagNameOfKey (key : JStr) : JStr :=
  match (splitOnChar '/' key).get? 1 with
  | some seg => seg
  | none => chars "undefined"

/-- The process-wide `featureFlags` object: flag name to boolean, in insertion
order.  Every stored value is a boolean because the code stores `!!parsed.enabled`. -/
abbrev Flags := List (JStr × Bool)

/-- Property read `featureFlags[name]` (`undefined`, i.e. `none`, when absent). -/
def lookupFlag : Flags → JStr → Option Bool
  | [], _ => none
  | (k, v) :: rest, key => if k = key then some v else lookupFlag rest key

/-- Property write `flags[name] = v` on a JavaScript object: update an existing
key in place, append a new one. -/
def setFlag : Flags → JStr → Bool → Flags
  | [], key, v => [(key, v)]
  | (k, w) :: rest, key, v =>
    if k = key then (k, v) :: rest else (k, w) :: setFlag rest key v

/-- The loop body of `refreshFeatureFlags` (lines 71-80) on one setting, with
`JSON.parse` supplied as the oracle `parse` (`none` models a parse that
throws).  A parse failure is caught by the inner `try`; so is the `TypeError`
raised by `parsed.enabled` when the parse result is `null`.  Every other parse
result stores `!!parsed.enabled` under the key's second segment. -/
def processSetting (parse : JStr → Option Json) (flags : Flags) (s : ConfigurationSetting) :
    Flags :=
  match parse s.value with
  | none => flags
  | some Json.null => flags
  | some j => setFlag flags (flagNameOfKey s.key) (jsTruthy (jsProp j (chars "enabled")))

/-- The fresh mapping one successful refresh builds from the listed settings
(the local `flags` object after the `for await` loop). -/
def buildFlags (parse : JStr → Option Json) (settings : List ConfigurationSetting) : Flags :=
  settings.foldl (processSetting parse) []

/-- Outcome of iterating `listConfigurationSettings`: either the complete list
of settings, or an exception thrown after some prefix of the settings had
already been consumed (mid-listing or mid-fetch). -/
inductive ListingOutcome where
  | ok (settings : List ConfigurationSetting)
  | err (consumed : List ConfigurationSetting)

/-- `refreshFeatureFlags` (lines 66-86) as a transition on the published
snapshot.  Without a configured client it returns at once.  A listing that
throws is caught by the outer `try` before the assignment at line 81, so the
previously published snapshot is kept; a completed listing replaces the
snapshot wholesale with the freshly built mapping. -/
def refreshFeatureFlags (parse : JStr → Option Json) (hasClient : Bool)
    (featureFlags : Flags) (outcome : ListingOutcome) : Flags :=
  if hasClient then
    match outcome with
    | ListingOutcome.ok settings => buildFlags parse settings
    | ListingOutcome.err _ => featureFlags
  else featureFlags

/-- A sequence of refresh attempts starting from the initial empty object `\x7b \x7d`. -/
def runRefreshes (parse : JStr → Option Json) (outcomes : List ListingOutcome) : Flags :=
  outcomes.foldl (refreshFeatureFlags parse true) []

/-- The settings of the most recent successful refresh in a sequence, if any. -/
def lastOk : List ListingOutcome → Option (List ConfigurationSetting)
  | [] => none
  | o :: rest =>
    match lastOk rest with
    | some settings => some settings
    | none =>
      match o with
      | ListingOutcome.ok settings => some settings
      | ListingOutcome.err _ => none

/-! ## Upload route (`app.post('/upload')`, lines 134-162) -/

/-- The multipart file of an upload request. -/
structure UploadFile where
  originalname : JStr
  buffer : List Nat
  mimetype : JStr
deriving DecidableEq

/-- A blob stored in the container. -/
structure StoredObject where
  name : JStr
  data : List Nat
  contentType : JStr
deriving DecidableEq

/-- Response of the upload route. -/
inductive UploadResponse where
  | noFile
  | uploaded (blobName : JStr) (url : JStr)
  | failure (msg : JStr)
deriving DecidableEq

/-- Decimal digit character for `d < 10`. -/
def digitChar (d : Nat) : Char := Char.ofNat (48 + d)

/-- Fuel-driven decimal rendering; `fuel > n` always suffices. -/
def natToCharsAux : Nat → Nat → List Char
  | 0, _ => []
  | fuel + 1, n =>
    if n < 10 then [digitChar n]
    else natToCharsAux fuel (n / 10) ++ [digitChar (n % 10)]

/-- JavaScript number-to-string conversion for the integers produced by
`Date.now()` (standard decimal notation). -/
def natToChars (n : Nat) : JStr := natToCharsAux (n + 1) n

/-- The upload route.  `now` is the value of `Date.now()`; `container` is the
state of the blob container, to which `uploadData` appends one object in a
single write.  Credential resolution happens on every request via
`getStorageCredentials`, whose `getSecret` oracle is `secretResult`. -/
def uploadRoute (cfg : ResolverConfig) (secretResult : Except JsError KVSecret)
    (now : Nat) (file : Option UploadFile) (container : List StoredObject) :
    UploadResponse × List StoredObject :=
  match file with
  | none => (UploadResponse.noFile, container)
  | some f =>
    match getStorageCredentials cfg secretResult with
    | (Except.error e, _) =>
      (UploadResponse.failure (chars "Upload failed: " ++ e.message), container)
    | (Except.ok _, _) =>
      let blobName := natToChars now ++ chars "-" ++ safeFilename f.originalname
      (UploadResponse.uploaded blobName
          (blobEndpoint cfg ++ chars "/" ++ cfg.containerName ++ chars "/" ++ blobName),
        container ++ [⟨blobName, f.buffer, f.mimetype⟩])

/-! ## Gallery route (`app.get('/gallery')`, lines 165-182) -/

/-- Response of the gallery route. -/
inductive GalleryResponse where
  | disabled
  | page (files : List (JStr × JStr))
  | failure (msg : JStr)
deriving DecidableEq

/-- How many external calls the gallery route performed. -/
structure GalleryCalls where
  credentialResolutions : Nat
  getSecretCalls : Nat
  blobListCalls : Nat
deriving DecidableEq

/-- The public URL built for a listed blob (line 174). -/
def blobPublicUrl (cfg : ResolverConfig) (name : JStr) : JStr :=
  chars "https://" ++ cfg.storageAccountName ++ chars ".blob.core.windows.net/" ++
    cfg.containerName ++ chars "/" ++ name

/-- The gallery route.  The gate at line 166 is the strict comparison
`featureFlags.enableGallery === false`.  Past the gate the route resolves the
credential and enumerates the container (`listing` is the outcome of
`listBlobsFlat`, which may itself throw). -/
def galleryRoute (cfg : ResolverConfig) (featureFlags : Flags)
    (secretResult : Except JsError KVSecret) (listing : Except JsError (List JStr)) :
    GalleryResponse × GalleryCalls :=
  if lookupFlag featureFlags (chars "enableGallery") = some false then
    (GalleryResponse.disabled, ⟨0, 0, 0⟩)
  else
    match getStorageCredentials cfg secretResult with
    | (Except.error e, n) =>
      (GalleryResponse.failure (chars "Failed to list images: " ++ e.message), ⟨1, n, 0⟩)
    | (Except.ok _, n) =>
      match listing with
      | Except.ok names =>
        (GalleryResponse.page (names.map fun nm => (nm, blobPublicUrl cfg nm)), ⟨1, n, 1⟩)
      | Except.error e =>
        (GalleryResponse.failure (chars "Failed to list images: " ++ e.message), ⟨1, n, 1⟩)

/-! ## Concrete instances used to instantiate the theorems -/

/-- Configuration with `STORAGE_ACCOUNT_KEY` present in the environment but
set to the empty string, and a Key Vault endpoint configured as well. -/
def cfgEmptyOverride : ResolverConfig :=
  ⟨chars "acct", some [], some (chars "https://vault.example.net"), chars "StorageAccountKey",
    chars "images"⟩

/-- Configuration with a non-empty direct override and a Key Vault endpoint. -/
def cfgOverrideAndVault : ResolverConfig :=
  ⟨chars "acct", some (chars "K"), some (chars "https://vault.example.net"),
    chars "StorageAccountKey", chars "images"⟩

/-- Configuration with no direct override and a Key Vault endpoint. -/
def cfgVaultOnly : ResolverConfig :=
  ⟨chars "acct", none, some (chars "https://vault.example.net"), chars "StorageAccountKey",
    chars "images"⟩

/-- Configuration with neither credential source configured. -/
def cfgNoSource : ResolverConfig :=
  ⟨chars "acct", none, none, chars "StorageAccountKey", chars "images"⟩

/-- A successful `getSecret` outcome carrying the secret value `K1`. -/
def secretOkK1 : Except JsError KVSecret := Except.ok ⟨some (chars "K1")⟩

/-- A failed `getSecret` outcome (network failure raised by the client). -/
def networkErr : JsError := ⟨chars "getaddrinfo ENOTFOUND vault.example.net"⟩

/-- A snapshot that disables the gallery. -/
def flagsGalleryOff : Flags := [(chars "enableGallery", false)]

/-- A parse oracle under which only the value `emptyobj` is valid JSON, namely
an object with no fields (so in particular no `enabled` field). -/
def parseEmptyObj : JStr → Option Json :=
  fun v => if v = chars "emptyobj" then some (Json.obj []) else none

/-- A remote-config entry whose value parses to an object without `enabled`. -/
def settingMissingEnabled : ConfigurationSetting :=
  ⟨chars ".appconfig.featureflag/x", chars "emptyobj"⟩

/-- A parse oracle under which only the value `okjson` is valid JSON, namely
the object with the single field `enabled` set to `true`. -/
def parseForWitness : JStr → Option Json :=
  fun v =>
    if v = chars "okjson" then some (Json.obj [(chars "enabled", Json.bool true)]) else none

/-- No two adjacent underscores occur in the string (shape of the sanitizer's
output after the underscore-collapsing step). -/
def noDoubleUnderscore (l : List Char) : Prop :=
  l.Chain' fun a b => ¬(a = '_' ∧ b = '_')

end Flx

namespace Flx

/-! ## Credential resolver: claims C1, C3, C7 -/

/-- An unset environment variable is falsy. -/
theorem envTruthy_none : envTruthy none = false := rfl

/-- A non-empty environment string is truthy. -/
theorem envTruthy_some_of_ne_nil {k : JStr} (hne : k ≠ []) : envTruthy (some k) = true := by
  cases k with
  | nil => exact absurd rfl hne
  | cons a t => rfl

/-- C1 (amended): for every configuration in which the direct credential
override `STORAGE_ACCOUNT_KEY` is present with a non-empty value,
`getStorageCredentials` returns a client built from the override value and
performs zero calls to the secret-store client, regardless of whether a
secret-store endpoint is also configured. -/
theorem c1_override_short_circuit (cfg : ResolverConfig)
    (secretResult : Except JsError KVSecret) (k : JStr)
    (hset : cfg.storageAccountKey = some k) (hne : k ≠ []) :
    getStorageCredentials cfg secretResult
      = (Except.ok (mkBlobServiceClient cfg (some k)), 0) := by
  simp [getStorageCredentials, hset, envTruthy_some_of_ne_nil hne]

/-- Witness for C1's theorem at a concrete configuration in which the Key
Vault endpoint is configured alongside the override. -/
theorem c1_override_short_circuit_witness :
    cfgOverrideAndVault.storageAccountKey = some (chars "K") ∧ chars "K" ≠ [] ∧
    getStorageCredentials cfgOverrideAndVault secretOkK1
      = (Except.ok (mkBlobServiceClient cfgOverrideAndVault (some (chars "K"))), 0) :=
  ⟨rfl, by decide,
    c1_override_short_circuit cfgOverrideAndVault secretOkK1 (chars "K") rfl (by decide)⟩

/-- Counterexample to C1 as stated: with `STORAGE_ACCOUNT_KEY` present but
equal to the empty string (a present configuration value) and a Key Vault
endpoint configured, the resolver performs one `getSecret` call instead of
zero, and the returned client is built from the Key Vault secret `K1`, not
from the override value. -/
theorem c1_counterexample_empty_override :
    cfgEmptyOverride.storageAccountKey = some [] ∧
    (getStorageCredentials cfgEmptyOverride secretOkK1).2 = 1 ∧
    (getStorageCredentials cfgEmptyOverride secretOkK1).1
      = Except.ok (mkBlobServiceClient cfgEmptyOverride (some (chars "K1"))) ∧
    mkBlobServiceClient cfgEmptyOverride (some (chars "K1"))
      ≠ mkBlobServiceClient cfgEmptyOverride cfgEmptyOverride.storageAccountKey := by
  refine ⟨rfl, rfl, rfl, by decide⟩

/-- C3 (amended): with no direct override and a secret-store endpoint
configured, a failing secret fetch makes `getStorageCredentials` throw the
`CredentialUnavailable` error after exactly one `getSecret` call, never
falling through to any other credential source; the underlying cause is not
attached to the thrown error. -/
theorem c3_vault_failure_wrapped (cfg : ResolverConfig) (e : JsError)
    (hov : cfg.storageAccountKey = none) (hkv : envTruthy cfg.keyVaultUrl = true) :
    getStorageCredentials cfg (Except.error e)
      = (Except.error ⟨vaultFailureMsg, none⟩, 1) ∧
    isCredentialUnavailable ⟨vaultFailureMsg, none⟩ := by
  constructor
  · simp [getStorageCredentials, hov, hkv, envTruthy_none]
  · exact Or.inl rfl

/-- Witness for C3's theorem at a concrete vault-only configuration. -/
theorem c3_vault_failure_wrapped_witness :
    cfgVaultOnly.storageAccountKey = none ∧ envTruthy cfgVaultOnly.keyVaultUrl = true ∧
    (getStorageCredentials cfgVaultOnly (Except.error networkErr)
        = (Except.error ⟨vaultFailureMsg, none⟩, 1) ∧
      isCredentialUnavailable ⟨vaultFailureMsg, none⟩) :=
  ⟨rfl, by decide, c3_vault_failure_wrapped cfgVaultOnly networkErr rfl (by decide)⟩

/-- Counterexample to C3 as stated: at a concrete vault-only configuration
whose secret fetch fails with a network error, the thrown error carries no
`cause` at all — in particular not the underlying network error the claim
requires to be attached. -/
theorem c3_counterexample_cause_not_attached :
    (getStorageCredentials cfgVaultOnly (Except.error networkErr)).1
      = Except.error ⟨vaultFailureMsg, none⟩ ∧
    thrownCause (getStorageCredentials cfgVaultOnly (Except.error networkErr)).1 = none ∧
    thrownCause (getStorageCredentials cfgVaultOnly (Except.error networkErr)).1
      ≠ some networkErr := by
  exact ⟨rfl, rfl, by decide⟩

/-- C7: with neither the direct override nor a secret-store endpoint
configured, `getStorageCredentials` fails immediately with the
`CredentialUnavailable` error and performs zero external calls. -/
theorem c7_no_source_immediate_failure (cfg : ResolverConfig)
    (secretResult : Except JsError KVSecret)
    (hov : cfg.storageAccountKey = none) (hkv : cfg.keyVaultUrl = none) :
    getStorageCredentials cfg secretResult = (Except.error ⟨noSourceMsg, none⟩, 0) ∧
    isCredentialUnavailable ⟨noSourceMsg, none⟩ := by
  constructor
  · simp [getStorageCredentials, hov, hkv, envTruthy_none]
  · exact Or.inr rfl

/-- Witness for C7's theorem at a concrete unconfigured environment. -/
theorem c7_no_source_immediate_failure_witness :
    cfgNoSource.storageAccountKey = none ∧ cfgNoSource.keyVaultUrl = none ∧
    (getStorageCredentials cfgNoSource secretOkK1 = (Except.error ⟨noSourceMsg, none⟩, 0) ∧
      isCredentialUnavailable ⟨noSourceMsg, none⟩) :=
  ⟨rfl, rfl, c7_no_source_immediate_failure cfgNoSource secretOkK1 rfl rfl⟩

/-! ## Gallery gate: claims C6, C10 -/

/-- C6: whenever the current snapshot maps `enableGallery` to `false`, the
gallery route answers `FeatureDisabled` (the 404 response) and performs zero
calls to the blob store client, including zero credential resolutions and
zero `getSecret` calls. -/
theorem c6_gallery_gate_blocks (cfg : ResolverConfig) (flags : Flags)
    (secretResult : Except JsError KVSecret) (listing : Except JsError (List JStr))
    (h : lookupFlag flags (chars "enableGallery") = some false) :
    galleryRoute cfg flags secretResult listing = (GalleryResponse.disabled, ⟨0, 0, 0⟩) := by
  simp [galleryRoute, h]

/-- Witness for C6's theorem at a concrete disabling snapshot. -/
theorem c6_gallery_gate_blocks_witness :
    lookupFlag flagsGalleryOff (chars "enableGallery") = some false ∧
    galleryRoute cfgOverrideAndVault flagsGalleryOff secretOkK1 (Except.ok [])
      = (GalleryResponse.disabled, ⟨0, 0, 0⟩) :=
  ⟨by decide,
    c6_gallery_gate_blocks cfgOverrideAndVault flagsGalleryOff secretOkK1 (Except.ok [])
      (by decide)⟩

/-- C10: the gate fires only on the exact value `false`.  For every snapshot in
which `enableGallery` is absent (in particular the initial empty snapshot) or
maps to any other value, the gallery route does not answer `FeatureDisabled`,
performs its one credential resolution, and, whenever that resolution
succeeds, one blob store enumeration. -/
theorem c10_gate_only_exact_false (cfg : ResolverConfig) (flags : Flags)
    (secretResult : Except JsError KVSecret) (listing : Except JsError (List JStr))
    (h : lookupFlag flags (chars "enableGallery") ≠ some false) :
    (galleryRoute cfg flags secretResult listing).1 ≠ GalleryResponse.disabled ∧
    (galleryRoute cfg flags secretResult listing).2.credentialResolutions = 1 ∧
    (∀ client, (getStorageCredentials cfg secretResult).1 = Except.ok client →
      (galleryRoute cfg flags secretResult listing).2.blobListCalls = 1) := by
  unfold galleryRoute
  rw [if_neg h]
  rcases hg : getStorageCredentials cfg secretResult with ⟨res, n⟩
  cases res with
  | error e =>
    refine ⟨by simp, by simp, ?_⟩
    intro client hc
    simp at hc
  | ok client =>
    cases listing with
    | ok names => exact ⟨by simp, by simp, fun _ _ => by simp⟩
    | error e => exact ⟨by simp, by simp, fun _ _ => by simp⟩

/-- Witness for C10's theorem at the initial empty snapshot with a successful
resolution and listing. -/
theorem c10_gate_only_exact_false_witness :
    lookupFlag ([] : Flags) (chars "enableGallery") ≠ some false ∧
    ((galleryRoute cfgOverrideAndVault [] secretOkK1 (Except.ok [chars "a.png"])).1
        ≠ GalleryResponse.disabled ∧
      (galleryRoute cfgOverrideAndVault [] secretOkK1
          (Except.ok [chars "a.png"])).2.credentialResolutions = 1 ∧
      (∀ client,
        (getStorageCredentials cfgOverrideAndVault secretOkK1).1 = Except.ok client →
        (galleryRoute cfgOverrideAndVault [] secretOkK1
            (Except.ok [chars "a.png"])).2.blobListCalls = 1)) :=
  ⟨by decide,
    c10_gate_only_exact_false cfgOverrideAndVault [] secretOkK1 (Except.ok [chars "a.png"])
      (by decide)⟩

/-! ## Feature-flag cache: claims C2, C5 -/

/-- Folding refresh attempts from any snapshot ends in the snapshot of the most
recent successful attempt, or in the starting snapshot if none succeeded. -/
theorem runRefreshes_from (parse : JStr → Option Json) :
    ∀ (outcomes : List ListingOutcome) (st : Flags),
      outcomes.foldl (refreshFeatureFlags parse true) st
        = (match lastOk outcomes with
           | none => st
           | some settings => buildFlags parse settings) := by
  intro outcomes
  induction outcomes with
  | nil => intro st; rfl
  | cons o rest ih =>
    intro st
    cases o with
    | ok settings =>
      simp only [List.foldl_cons, lastOk, refreshFeatureFlags, if_pos rfl, ih]
      cases hrest : lastOk rest <;> simp
    | err consumed =>
      simp only [List.foldl_cons, lastOk, refreshFeatureFlags, if_pos rfl, ih]
      cases hrest : lastOk rest <;> simp

/-- C2: starting from the initial empty snapshot, after any sequence of
refresh attempts the published snapshot is exactly the mapping built by the
most recent successful refresh, or still the empty mapping when none has
succeeded; moreover a refresh whose listing throws at any point, after
consuming any prefix of the settings, leaves any published snapshot entirely
unchanged. -/
theorem c2_snapshot_invariant (parse : JStr → Option Json) (outcomes : List ListingOutcome) :
    runRefreshes parse outcomes
      = (match lastOk outcomes with
         | none => ([] : Flags)
         | some settings => buildFlags parse settings) ∧
    (∀ (st : Flags) (consumed : List ConfigurationSetting),
      refreshFeatureFlags parse true st (ListingOutcome.err consumed) = st) :=
  ⟨runRefreshes_from parse outcomes [], fun _ _ => rfl⟩

/-- Counterexample to C5 as stated: under a parse oracle for which `emptyobj`
denotes a valid JSON object with no `enabled` field, a refresh over the single
entry `.appconfig.featureflag/x = emptyobj` does not skip the entry — the new
snapshot maps `x` to `false` instead of leaving it absent. -/
theorem c5_counterexample_missing_enabled_recorded :
    buildFlags parseEmptyObj [settingMissingEnabled] = [(chars "x", false)] ∧
    lookupFlag (buildFlags parseEmptyObj [settingMissingEnabled]) (chars "x") = some false :=
  ⟨by decide, by decide⟩

/-- C5 (amended): an entry whose value is not valid JSON is skipped
individually without aborting the refresh; an entry that parses to an object
lacking the `enabled` field is not skipped but recorded with flag value
`false`; and a refresh seeing one non-JSON entry and one valid entry
`enabled: true` under the key `.appconfig.featureflag/enableGallery` yields
exactly the snapshot mapping `enableGallery` to `true`. -/
theorem c5_malformed_entries (parse : JStr → Option Json) :
    (∀ (pre post : List ConfigurationSetting) (e : ConfigurationSetting),
        parse e.value = none →
        buildFlags parse (pre ++ e :: post) = buildFlags parse (pre ++ post)) ∧
    (∀ (k v : JStr) (fields : List (JStr × Json)),
        parse v = some (Json.obj fields) → getField fields (chars "enabled") = none →
        buildFlags parse [⟨k, v⟩] = [(flagNameOfKey k, false)]) ∧
    (∀ (k₁ v₁ v₂ : JStr), parse v₁ = none →
        parse v₂ = some (Json.obj [(chars "enabled", Json.bool true)]) →
        buildFlags parse [⟨k₁, v₁⟩, ⟨chars ".appconfig.featureflag/enableGallery", v₂⟩]
          = [(chars "enableGallery", true)]) := by
  refine ⟨?_, ?_, ?_⟩
  · intro pre post e he
    have hskip : ∀ fl, processSetting parse fl e = fl := by
      intro fl
      simp [processSetting, he]
    simp only [buildFlags, List.foldl_append, List.foldl_cons, hskip]
  · intro k v fields h1 h2
    simp [buildFlags, processSetting, h1, jsProp, h2, jsTruthy, setFlag]
  · intro k₁ v₁ v₂ h1 h2
    simp only [buildFlags, List.foldl_cons, List.foldl_nil, processSetting, h1, h2]
    decide

/-- Witness for C5's theorem: the two-entry refresh scenario at a concrete
parse oracle. -/
theorem c5_malformed_entries_witness :
    buildFlags parseForWitness
        [⟨chars "k1", chars "notjson"⟩,
          ⟨chars ".appconfig.featureflag/enableGallery", chars "okjson"⟩]
      = [(chars "enableGallery", true)] :=
  (c5_malformed_entries parseForWitness).2.2 (chars "k1") (chars "notjson") (chars "okjson")
    rfl rfl

end Flx


namespace Flx

/-! ## Filename sanitizer: claims C4, C9 -/

/-- Every character of the run-replaced string is the replacement character or
a character of the input. -/
theorem replaceRunsGo_mem (p : Char → Bool) (r : Char) :
    ∀ (l : List Char) (b : Bool) (c : Char),
      c ∈ replaceRunsGo p r b l → c = r ∨ c ∈ l := by
  intro l
  induction l with
  | nil => intro b c hc; cases b <;> simp [replaceRunsGo] at hc
  | cons a t ih =>
    intro b c hc
    by_cases hp : p a = true
    · cases b with
      | true =>
        rw [replaceRunsGo, if_pos hp] at hc
        rcases ih true c hc with h | h
        · exact Or.inl h
        · exact Or.inr (List.mem_cons_of_mem a h)
      | false =>
        rw [replaceRunsGo, if_pos hp] at hc
        rcases List.mem_cons.1 hc with h | h
        · exact Or.inl h
        · rcases ih true c h with h2 | h2
          · exact Or.inl h2
          · exact Or.inr (List.mem_cons_of_mem a h2)
    · have hstep : replaceRunsGo p r b (a :: t) = a :: replaceRunsGo p r false t := by
        cases b <;> rw [replaceRunsGo, if_neg hp]
      rw [hstep] at hc
      rcases List.mem_cons.1 hc with h | h
      · exact Or.inr (h ▸ List.mem_cons_self a t)
      · rcases ih false c h with h2 | h2
        · exact Or.inl h2
        · exact Or.inr (List.mem_cons_of_mem a h2)

/-- Characters outside the replaced class survive run replacement. -/
theorem replaceRunsGo_mem_of (p : Char → Bool) (r : Char) :
    ∀ (l : List Char) (b : Bool) (c : Char),
      c ∈ l → p c = false → c ∈ replaceRunsGo p r b l := by
  intro l
  induction l with
  | nil => intro b c hc _; cases hc
  | cons a t ih =>
    intro b c hc hpc
    rcases List.mem_cons.1 hc with rfl | h
    · have hp : p c = false := hpc
      have hstep : replaceRunsGo p r b (c :: t) = c :: replaceRunsGo p r false t := by
        cases b <;> rw [replaceRunsGo, if_neg (by rw [hp]; exact Bool.false_ne_true)]
      rw [hstep]
      exact List.mem_cons_self c (replaceRunsGo p r false t)
    · by_cases hp : p a = true
      · cases b with
        | true =>
          rw [replaceRunsGo, if_pos hp]
          exact ih true c h hpc
        | false =>
          rw [replaceRunsGo, if_pos hp]
          exact List.mem_cons_of_mem r (ih true c h hpc)
      · have hstep : replaceRunsGo p r b (a :: t) = a :: replaceRunsGo p r false t := by
          cases b <;> rw [replaceRunsGo, if_neg hp]
        rw [hstep]
        exact List.mem_cons_of_mem a (ih false c h hpc)

/-- Run replacement is the identity on strings without any replaced character. -/
theorem replaceRunsGo_eq_self_of_not (p : Char → Bool) (r : Char) :
    ∀ (l : List Char), (∀ c ∈ l, p c = false) →
      replaceRunsGo p r false l = l := by
  intro l
  induction l with
  | nil => intro _; rfl
  | cons a t ih =>
    intro h
    have hpa : p a = false := h a (List.mem_cons_self a t)
    rw [replaceRunsGo, if_neg (by rw [hpa]; exact Bool.false_ne_true)]
    rw [ih fun c hc => h c (List.mem_cons_of_mem a hc)]

/-- After collapsing underscore runs, no two adjacent underscores remain, and
inside a run (flag `true`) the output cannot start with an underscore. -/
theorem replaceRunsGo_underscore_chain :
    ∀ (l : List Char) (b : Bool),
      noDoubleUnderscore (replaceRunsGo isUnderscore '_' b l) ∧
      (b = true → ∀ c, (replaceRunsGo isUnderscore '_' b l).head? = some c → c ≠ '_') := by
  intro l
  induction l with
  | nil =>
    intro b
    constructor
    · cases b <;> exact List.chain'_nil
    · intro _ c hc
      cases b <;> simp [replaceRunsGo] at hc
  | cons a t ih =>
    intro b
    by_cases hp : isUnderscore a = true
    · cases b with
      | true =>
        rw [replaceRunsGo, if_pos hp]
        exact ih true
      | false =>
        rw [replaceRunsGo, if_pos hp]
        refine ⟨?_, by intro h; cases h⟩
        refine List.chain'_cons'.2 ⟨?_, (ih true).1⟩
        intro y hy hcon
        exact (ih true).2 rfl y hy hcon.2
    · have ha : a ≠ '_' := by
        intro hcon
        apply hp
        rw [hcon]
        rfl
      have hstep : replaceRunsGo isUnderscore '_' b (a :: t)
          = a :: replaceRunsGo isUnderscore '_' false t := by
        cases b <;> rw [replaceRunsGo, if_neg hp]
      rw [hstep]
      constructor
      · refine List.chain'_cons'.2 ⟨?_, (ih false).1⟩
        intro y _ hcon
        exact ha hcon.1
      · intro _ c hc
        rw [List.head?_cons, Option.some_inj] at hc
        exact hc ▸ ha

/-- Collapsing underscore runs is the identity on strings without adjacent
underscores (and, inside a run, on strings not starting with an underscore). -/
theorem replaceRunsGo_underscore_eq_self :
    ∀ (l : List Char), noDoubleUnderscore l →
      replaceRunsGo isUnderscore '_' false l = l ∧
      ((∀ c, l.head? = some c → c ≠ '_') → replaceRunsGo isUnderscore '_' true l = l) := by
  intro l
  induction l with
  | nil => exact fun _ => ⟨rfl, fun _ => rfl⟩
  | cons a t ih =>
    intro h
    have hrel := (List.chain'_cons'.1 h).1
    have htail := (List.chain'_cons'.1 h).2
    by_cases hp : isUnderscore a = true
    · have ha : a = '_' := by
        have := hp
        rw [isUnderscore, beq_iff_eq] at this
        exact this
      have hheadt : ∀ c, t.head? = some c → c ≠ '_' := by
        intro c hc hcon
        exact hrel c hc ⟨ha, hcon⟩
      constructor
      · rw [replaceRunsGo, if_pos hp, (ih htail).2 hheadt, ha]
      · intro hhead
        exact absurd ha (hhead a (List.head?_cons))
    · have hstep : ∀ b, replaceRunsGo isUnderscore '_' b (a :: t)
          = a :: replaceRunsGo isUnderscore '_' false t := by
        intro b
        cases b <;> rw [replaceRunsGo, if_neg hp]
      constructor
      · rw [hstep false, (ih htail).1]
      · intro _
        rw [hstep true, (ih htail).1]

end Flx

namespace Flx

/-- The head of a `dropWhile` result never satisfies the dropped predicate. -/
theorem head_dropWhile_not (q : Char → Bool) :
    ∀ (l : List Char) (c : Char), (l.dropWhile q).head? = some c → q c = false := by
  intro l
  induction l with
  | nil => intro c hc; cases hc
  | cons a t ih =>
    intro c hc
    by_cases hq : q a = true
    · rw [List.dropWhile_cons, if_pos hq] at hc
      exact ih c hc
    · rw [List.dropWhile_cons, if_neg hq, List.head?_cons, Option.some_inj] at hc
      rw [← hc]
      exact Bool.not_eq_true _ ▸ hq

/-- Characters not satisfying the dropped predicate survive `dropWhile`. -/
theorem mem_dropWhile_of_not (q : Char → Bool) :
    ∀ (l : List Char) (c : Char), c ∈ l → q c = false → c ∈ l.dropWhile q := by
  intro l
  induction l with
  | nil => intro c hc _; cases hc
  | cons a t ih =>
    intro c hc hqc
    by_cases hq : q a = true
    · rw [List.dropWhile_cons, if_pos hq]
      rcases List.mem_cons.1 hc with rfl | h
      · rw [hqc] at hq; cases hq
      · exact ih c h hqc
    · rw [List.dropWhile_cons, if_neg hq]
      exact hc

/-- `dropWhile` is the identity when the head does not satisfy the predicate. -/
theorem dropWhile_eq_self_of_head (q : Char → Bool) :
    ∀ (l : List Char), (∀ c, l.head? = some c → q c = false) → l.dropWhile q = l := by
  intro l h
  cases l with
  | nil => rfl
  | cons a t =>
    have := h a List.head?_cons
    rw [List.dropWhile_cons, if_neg (by rw [this]; exact Bool.false_ne_true)]

/-- Stripping a trailing underscore run yields a prefix of the string. -/
theorem prefixFact_dropTrailingUnderscores (l : List Char) : dropTrailingUnderscores l <+: l := by
  have h := List.dropWhile_suffix (l := l.reverse) isUnderscore
  have h2 := List.reverse_prefix.2 h
  rw [List.reverse_reverse] at h2
  exact h2

/-- Heads agree along a prefix. -/
theorem prefixFact_head_eq {l₁ l₂ : List Char} (h : l₁ <+: l₂) :
    ∀ c, l₁.head? = some c → l₂.head? = some c := by
  rcases h with ⟨t, rfl⟩
  intro c hc
  cases l₁ with
  | nil => cases hc
  | cons a t₁ =>
    rw [List.head?_cons, Option.some_inj] at hc
    rw [List.cons_append, List.head?_cons, hc]

/-- Non-underscore characters survive trailing-underscore stripping. -/
theorem mem_dropTrailingUnderscores (l : List Char) (c : Char)
    (hc : c ∈ l) (hne : isUnderscore c = false) : c ∈ dropTrailingUnderscores l := by
  rw [dropTrailingUnderscores, List.mem_reverse]
  exact mem_dropWhile_of_not isUnderscore l.reverse c (List.mem_reverse.2 hc) hne

/-- Non-underscore characters survive the full underscore stripping. -/
theorem mem_stripUnderscores (l : List Char) (c : Char)
    (hc : c ∈ l) (hne : isUnderscore c = false) : c ∈ stripUnderscores l :=
  mem_dropTrailingUnderscores _ c (mem_dropWhile_of_not isUnderscore l c hc hne) hne

/-- Underscore stripping only removes characters. -/
theorem stripUnderscores_subset (l : List Char) : stripUnderscores l ⊆ l := by
  intro c hc
  exact (List.dropWhile_suffix isUnderscore).subset
    ((prefixFact_dropTrailingUnderscores _).subset hc)

/-- The stripped string never starts with an underscore. -/
theorem stripUnderscores_head (l : List Char) :
    ∀ c, (stripUnderscores l).head? = some c → isUnderscore c = false := by
  intro c hc
  have h2 := prefixFact_head_eq (prefixFact_dropTrailingUnderscores (l.dropWhile isUnderscore)) c hc
  exact head_dropWhile_not isUnderscore l c h2

/-- The stripped string never ends with an underscore. -/
theorem stripUnderscores_last (l : List Char) :
    ∀ c, (stripUnderscores l).getLast? = some c → isUnderscore c = false := by
  intro c hc
  rw [stripUnderscores, dropTrailingUnderscores, List.getLast?_reverse] at hc
  exact head_dropWhile_not isUnderscore (l.dropWhile isUnderscore).reverse c hc

/-- Underscore stripping preserves the no-adjacent-underscores shape. -/
theorem noDoubleUnderscore_stripUnderscores (l : List Char)
    (h : noDoubleUnderscore l) : noDoubleUnderscore (stripUnderscores l) :=
  List.Chain'.prefix
    (List.Chain'.suffix h (List.dropWhile_suffix isUnderscore))
    (prefixFact_dropTrailingUnderscores _)

/-- Underscore stripping is the identity when neither end is an underscore. -/
theorem stripUnderscores_eq_self (l : List Char)
    (hh : ∀ c, l.head? = some c → isUnderscore c = false)
    (hl : ∀ c, l.getLast? = some c → isUnderscore c = false) :
    stripUnderscores l = l := by
  rw [stripUnderscores, dropWhile_eq_self_of_head isUnderscore l hh, dropTrailingUnderscores]
  rw [dropWhile_eq_self_of_head isUnderscore l.reverse ?hrev, List.reverse_reverse]
  case hrev =>
    intro c hc
    rw [List.head?_reverse] at hc
    exact hl c hc

end Flx

namespace Flx

/-- An allowed character is not the underscore. -/
theorem allowed_not_underscore (c : Char) (h : allowedChar c = true) :
    isUnderscore c = false := by
  by_cases hc : c = '_'
  · rw [hc] at h
    exact absurd h (by decide)
  · rw [isUnderscore]
    exact beq_eq_false_iff_ne.2 hc

/-- An allowed character is not whitespace. -/
theorem allowed_not_ws (c : Char) (h : allowedChar c = true) :
    isJsWhitespace c = false := by
  cases hw : isJsWhitespace c with
  | false => rfl
  | true =>
    exfalso
    simp only [isJsWhitespace, Bool.or_eq_true, beq_iff_eq] at hw
    rcases hw with ((((rfl | rfl) | rfl) | rfl) | rfl) | rfl <;> exact absurd h (by decide)

/-- Every character of the sanitizer's output is allowed or an underscore. -/
theorem safeFilename_chars (s : JStr) :
    ∀ c ∈ safeFilename s, allowedChar c = true ∨ c = '_' := by
  intro c hc
  have hc1 := stripUnderscores_subset _ hc
  rcases replaceRunsGo_mem isUnderscore '_' _ false c hc1 with h | hc2
  · exact Or.inr h
  rcases replaceRunsGo_mem isJsWhitespace '_' _ false c hc2 with h | hc3
  · exact Or.inr h
  rcases List.mem_map.1 hc3 with ⟨a, _, ha⟩
  by_cases hal : allowedChar a = true
  · rw [if_pos hal] at ha
    exact Or.inl (ha ▸ hal)
  · rw [if_neg hal] at ha
    exact Or.inr ha.symm

/-- The sanitizer's output never has an adjacent pair of underscores. -/
theorem safeFilename_noDouble (s : JStr) : noDoubleUnderscore (safeFilename s) :=
  noDoubleUnderscore_stripUnderscores _
    (replaceRunsGo_underscore_chain
      (replaceRuns isJsWhitespace '_' (s.map fun c => if allowedChar c then c else '_'))
      false).1

/-- C4: for every input string containing at least one character of the class
`[A-Za-z0-9.-]`, the sanitizer's output is non-empty, every output character
is in that class or an internal underscore, and the output neither starts nor
ends with an underscore. -/
theorem c4_sanitizer_output_shape (s : JStr) (h : ∃ c ∈ s, allowedChar c = true) :
    safeFilename s ≠ [] ∧
    (∀ c ∈ safeFilename s, allowedChar c = true ∨ c = '_') ∧
    (∀ c, (safeFilename s).head? = some c → c ≠ '_') ∧
    (∀ c, (safeFilename s).getLast? = some c → c ≠ '_') := by
  obtain ⟨c, hcs, hca⟩ := h
  refine ⟨?_, safeFilename_chars s, ?_, ?_⟩
  · have h1 : c ∈ s.map (fun c => if allowedChar c then c else '_') := by
      have he : (if allowedChar c then c else '_') = c := if_pos hca
      exact he ▸ List.mem_map_of_mem _ hcs
    have h2 := replaceRunsGo_mem_of isJsWhitespace '_' _ false c h1 (allowed_not_ws c hca)
    have h3 := replaceRunsGo_mem_of isUnderscore '_' _ false c h2
      (allowed_not_underscore c hca)
    have h4 : c ∈ safeFilename s :=
      mem_stripUnderscores _ c h3 (allowed_not_underscore c hca)
    exact List.ne_nil_of_mem h4
  · intro d hd
    have := stripUnderscores_head _ d hd
    rw [isUnderscore] at this
    exact beq_eq_false_iff_ne.1 this
  · intro d hd
    have := stripUnderscores_last _ d hd
    rw [isUnderscore] at this
    exact beq_eq_false_iff_ne.1 this

/-- Witness for C4's theorem at the input `a b.png`. -/
theorem c4_sanitizer_output_shape_witness :
    (∃ c ∈ chars "a b.png", allowedChar c = true) ∧
    (safeFilename (chars "a b.png") ≠ [] ∧
      (∀ c ∈ safeFilename (chars "a b.png"), allowedChar c = true ∨ c = '_') ∧
      (∀ c, (safeFilename (chars "a b.png")).head? = some c → c ≠ '_') ∧
      (∀ c, (safeFilename (chars "a b.png")).getLast? = some c → c ≠ '_')) :=
  ⟨by decide, c4_sanitizer_output_shape (chars "a b.png") (by decide)⟩

/-- Replacing disallowed characters is the identity on sanitizer output. -/
theorem map_sanitize_eq_self :
    ∀ (l : List Char), (∀ c ∈ l, allowedChar c = true ∨ c = '_') →
      (l.map fun c => if allowedChar c then c else '_') = l := by
  intro l
  induction l with
  | nil => intro _; rfl
  | cons a t ih =>
    intro h
    rw [List.map_cons, ih fun c hc => h c (List.mem_cons_of_mem a hc)]
    rcases h a (List.mem_cons_self a t) with ha | ha
    · rw [if_pos ha]
    · rw [ha]
      rfl

/-- C9: the sanitizer is idempotent — re-sanitizing its own output returns
the output unchanged. -/
theorem c9_sanitizer_idempotent (s : JStr) :
    safeFilename (safeFilename s) = safeFilename s := by
  have hchars := safeFilename_chars s
  have e1 : ((safeFilename s).map fun c => if allowedChar c then c else '_')
      = safeFilename s := map_sanitize_eq_self _ hchars
  have e2 : replaceRuns isJsWhitespace '_' (safeFilename s) = safeFilename s := by
    refine replaceRunsGo_eq_self_of_not isJsWhitespace '_' _ ?_
    intro c hc
    rcases hchars c hc with h | h
    · exact allowed_not_ws c h
    · rw [h]
      rfl
  have e3 : replaceRuns isUnderscore '_' (safeFilename s) = safeFilename s :=
    (replaceRunsGo_underscore_eq_self _ (safeFilename_noDouble s)).1
  have e4 : stripUnderscores (safeFilename s) = safeFilename s := by
    refine stripUnderscores_eq_self _ ?_ ?_
    · exact stripUnderscores_head _
    · exact stripUnderscores_last _
  show stripUnderscores
      (replaceRuns isUnderscore '_'
        (replaceRuns isJsWhitespace '_'
          ((safeFilename s).map fun c => if allowedChar c then c else '_')))
    = safeFilename s
  rw [e1, e2, e3, e4]

end Flx

namespace Flx

/-- Digit characters are decimal digits. -/
theorem digitChar_isDigit (d : Nat) (h : d < 10) : (digitChar d).isDigit = true := by
  interval_cases d <;> decide

/-- With sufficient fuel, the decimal rendering is non-empty and all digits. -/
theorem natToCharsAux_spec :
    ∀ (fuel n : Nat), n < fuel →
      natToCharsAux fuel n ≠ [] ∧ ∀ c ∈ natToCharsAux fuel n, c.isDigit = true := by
  intro fuel
  induction fuel with
  | zero => intro n h; exact absurd h (Nat.not_lt_zero n)
  | succ f ih =>
    intro n h
    by_cases h10 : n < 10
    · rw [natToCharsAux, if_pos h10]
      refine ⟨by simp, ?_⟩
      intro c hc
      rw [List.mem_singleton] at hc
      rw [hc]
      exact digitChar_isDigit n h10
    · rw [natToCharsAux, if_neg h10]
      have hdiv : n / 10 < f := by
        have hn : 10 ≤ n := Nat.le_of_not_lt h10
        have hlt : n / 10 < n := Nat.div_lt_self (by omega) (by omega)
        omega
      obtain ⟨hne, hdig⟩ := ih (n / 10) hdiv
      refine ⟨by simp [hne], ?_⟩
      intro c hc
      rcases List.mem_append.1 hc with h1 | h1
      · exact hdig c h1
      · rw [List.mem_singleton] at h1
        rw [h1]
        exact digitChar_isDigit _ (Nat.mod_lt n (by omega))

/-- The rendering of `Date.now()` is a non-empty string of decimal digits. -/
theorem natToChars_digits (n : Nat) :
    natToChars n ≠ [] ∧ ∀ c ∈ natToChars n, c.isDigit = true :=
  natToCharsAux_spec (n + 1) n (Nat.lt_succ_self n)

/-- C8: uploading arbitrary bytes with original name `a b.png` into an empty
container writes exactly one object, whose key is a non-empty run of decimal
digits followed by `-a_b.png` (the pattern `^\d+-a_b\.png$`); the gallery
listing taken afterwards includes exactly that object. -/
theorem c8_upload_unique_key (cfg : ResolverConfig) (secretResult : Except JsError KVSecret)
    (now : Nat) (bytes : List Nat) (mime : JStr) (client : BlobServiceClient) (flags : Flags)
    (hcred : (getStorageCredentials cfg secretResult).1 = Except.ok client)
    (hflag : lookupFlag flags (chars "enableGallery") ≠ some false) :
    ∃ blobName,
      (uploadRoute cfg secretResult now (some ⟨chars "a b.png", bytes, mime⟩) []).2
        = [⟨blobName, bytes, mime⟩] ∧
      (∃ ds, ds ≠ [] ∧ (∀ c ∈ ds, c.isDigit = true) ∧ blobName = ds ++ chars "-a_b.png") ∧
      (galleryRoute cfg flags secretResult
          (Except.ok
            ((uploadRoute cfg secretResult now
                (some ⟨chars "a b.png", bytes, mime⟩) []).2.map StoredObject.name))).1
        = GalleryResponse.page [(blobName, blobPublicUrl cfg blobName)] := by
  rcases hg : getStorageCredentials cfg secretResult with ⟨res, n⟩
  rw [hg] at hcred
  simp only at hcred
  subst hcred
  have hupload : (uploadRoute cfg secretResult now
      (some ⟨chars "a b.png", bytes, mime⟩) []).2
      = [⟨natToChars now ++ chars "-" ++ safeFilename (chars "a b.png"), bytes, mime⟩] := by
    simp [uploadRoute, hg]
  refine ⟨natToChars now ++ chars "-" ++ safeFilename (chars "a b.png"), hupload, ?_, ?_⟩
  · refine ⟨natToChars now, (natToChars_digits now).1, (natToChars_digits now).2, ?_⟩
    rw [show safeFilename (chars "a b.png") = chars "a_b.png" from by decide]
    rw [List.append_assoc]
    rfl
  · rw [hupload]
    unfold galleryRoute
    rw [if_neg hflag, hg]
    simp

end Flx

namespace Flx

/-- Witness for C8's theorem at a concrete configuration, timestamp and file. -/
theorem c8_upload_unique_key_witness :
    (getStorageCredentials cfgOverrideAndVault secretOkK1).1
      = Except.ok (mkBlobServiceClient cfgOverrideAndVault (some (chars "K"))) ∧
    lookupFlag ([] : Flags) (chars "enableGallery") ≠ some false ∧
    (∃ blobName,
      (uploadRoute cfgOverrideAndVault secretOkK1 5
          (some ⟨chars "a b.png", [7, 8], chars "image/png"⟩) []).2
        = [⟨blobName, [7, 8], chars "image/png"⟩] ∧
      (∃ ds, ds ≠ [] ∧ (∀ c ∈ ds, c.isDigit = true) ∧ blobName = ds ++ chars "-a_b.png") ∧
      (galleryRoute cfgOverrideAndVault [] secretOkK1
          (Except.ok
            ((uploadRoute cfgOverrideAndVault secretOkK1 5
                (some ⟨chars "a b.png", [7, 8], chars "image/png"⟩) []).2.map
              StoredObject.name))).1
        = GalleryResponse.page [(blobName, blobPublicUrl cfgOverrideAndVault blobName)]) :=
  ⟨rfl, by decide,
    c8_upload_unique_key cfgOverrideAndVault secretOkK1 5 [7, 8] (chars "image/png")
      (mkBlobServiceClient cfgOverrideAndVault (some (chars "K"))) [] rfl (by decide)⟩

end Flx
